import Mathlib

/-!
Verification development for the Study Buddy backend (FastAPI + document
store with in-memory fallback).

The embedding models the fallback path of the persistence adapter
(`database.py`: `create_document`, `get_documents` with `db is None`) and
the rule-based request handlers of `main.py` (`chat`, `generate_flashcards`,
`generate_quiz`, `create_plan`).

Modelling decisions, all taken from the source:
* Python dicts become association lists (`List (String × Value)`) with
  Python's semantics: assignment overwrites the first occurrence of a key
  in place, otherwise appends at the end; `d.get(k)` yields `None` for a
  missing key.
* The universe `Value` covers exactly the field values this program ever
  stores: `None`, strings, ints, datetimes (modelled as a numeric clock
  reading), lists of strings, flashcard items, quiz questions, plan tasks.
* Every call to `datetime.now(...)` is a fresh clock reading, passed in as
  an explicit argument (two successive readings need not coincide).
* Python's `str(n)` on a non-negative int is `natDecimal`, the standard
  decimal rendering.
-/

namespace StudyBuddy

/-- Decimal digits of a positive number, most significant first; the
first argument is structural fuel (use `n` itself). -/
def natDecimalAux : Nat → Nat → List Char
  | 0, _ => []
  | _ + 1, 0 => []
  | fuel + 1, n + 1 =>
      natDecimalAux fuel ((n + 1) / 10) ++ [Nat.digitChar ((n + 1) % 10)]

/-- Decimal digits of `n`, most significant first, as characters
(`['0']` for `0`); this is exactly Python's `str(n)` for `n ≥ 0`. -/
def natDecimal (n : Nat) : List Char :=
  if n = 0 then ['0'] else natDecimalAux n n

/-- `str(n)` as a Lean string. -/
def natStr (n : Nat) : String :=
  String.mk (natDecimal n)

/-- Python dict lookup (first matching key). -/
def alistGet {α : Type} (l : List (String × α)) (k : String) : Option α :=
  match l with
  | [] => none
  | (k', v) :: rest => if k' = k then some v else alistGet rest k

/-- Python dict assignment `d[k] = v`: overwrite the first occurrence of
`k` in place, otherwise append the new pair at the end. -/
def dictSet {α : Type} (l : List (String × α)) (k : String) (v : α) :
    List (String × α) :=
  match l with
  | [] => [(k, v)]
  | (k', v') :: rest =>
      if k' = k then (k, v) :: rest else (k', v') :: dictSet rest k v

/-- A flashcard item `{"question": ..., "answer": ...}`. -/
structure FItem where
  question : String
  answer : String
deriving DecidableEq

/-- Question kind: `"mcq"` or `"short"`. -/
inductive QType where
  | mcq
  | short
deriving DecidableEq

/-- A quiz question dict; `options`/`answer` are absent on short questions. -/
structure QuizQ where
  question : String
  type : QType
  options : Option (List String)
  answer : Option String
deriving DecidableEq

/-- A study-plan task `{"date", "subject", "topic", "minutes"}`. -/
structure Task where
  date : String
  subject : String
  topic : String
  minutes : Int
deriving DecidableEq

/-- The field values this backend stores: Python `None`, strings, ints,
datetimes (a clock reading), and the three list shapes the handlers build. -/
inductive Value where
  | null
  | str (s : String)
  | int (z : Int)
  | time (t : Nat)
  | strList (l : List String)
  | fitems (l : List FItem)
  | qlist (l : List QuizQ)
  | tlist (l : List Task)
deriving DecidableEq

/-- A document: a Python dict from field names to values. -/
abbrev Doc := List (String × Value)

/-- The in-memory fallback store `_memory_store`: a dict from collection
name to the ordered list of documents inserted into it. -/
abbrev Store := List (String × List Doc)

/-- `doc.get(k)`: `None` when the key is missing. -/
def pyGet (d : Doc) (k : String) : Value :=
  (alistGet d k).getD Value.null

/-- The list held for a collection (empty if the collection is absent). -/
def storedColl (st : Store) (c : String) : List Doc :=
  (alistGet st c).getD []

/-- Number of documents currently stored in collection `c`. -/
def collLen (st : Store) (c : String) : Nat :=
  (storedColl st c).length

/-- The pseudo id
`f"demo-{collection_name}-{int(datetime.now().timestamp()*1000)}-{len(coll)+1}"`. -/
def pseudoId (c : String) (millis seq : Nat) : String :=
  "demo-" ++ c ++ "-" ++ natStr millis ++ "-" ++ natStr seq

/-- `create_document` on the fallback path (`db is None`): stamp
`created_at` with the first clock reading `tC` and `updated_at` with the
second reading `tU`, synthesize the pseudo id from the third reading `tM`
(epoch millis) and the current collection length, store the id under
`_id`, append the document, and return the id with the updated store. -/
def create_document (c : String) (data : Doc) (tC tU tM : Nat)
    (st : Store) : String × Store :=
  let d1 := dictSet data "created_at" (Value.time tC)
  let d2 := dictSet d1 "updated_at" (Value.time tU)
  let coll := storedColl st c
  let pid := pseudoId c tM (coll.length + 1)
  let d3 := dictSet d2 "_id" (Value.str pid)
  (pid, dictSet st c (coll ++ [d3]))

/-- The naive filter of `get_documents`: `doc.get(k) != v` rejects, so a
document matches iff every filter pair agrees with `doc.get` (missing keys
reading as `None`). -/
def matchesFilter (fd : Doc) (d : Doc) : Bool :=
  fd.all (fun p => pyGet d p.1 == p.2)

/-- Python slice `l[:n]` for an int `n`: from the front for `n ≥ 0`,
dropping `-n` elements from the end for negative `n`. -/
def pyTake {α : Type} (l : List α) (n : Int) : List α :=
  if 0 ≤ n then l.take n.toNat else l.take (l.length - (-n).toNat)

/-- `get_documents` on the fallback path: filter the collection in
insertion order and apply `if limit: results = results[:limit]` — the
slice is skipped when `limit` is `None` or `0` (Python falsiness). -/
def get_documents (c : String) (fd : Doc) (limit : Option Int)
    (st : Store) : List Doc :=
  let results := (storedColl st c).filter (matchesFilter fd)
  match limit with
  | none => results
  | some n => if n = 0 then results else pyTake results n

/-- Python `s.strip()`: remove leading and trailing whitespace. -/
def pyStrip (s : String) : String :=
  String.mk (((s.data.dropWhile Char.isWhitespace).reverse.dropWhile
    Char.isWhitespace).reverse)

/-- Python `s or dflt` on an optional string: the default replaces both
`None` and the empty (falsy) string. -/
def pyOrStr (s : Option String) (dflt : String) : String :=
  match s with
  | none => dflt
  | some s => if s = "" then dflt else s

/-- An optional string field as a stored value (`None` stays `None`). -/
def optVal (s : Option String) : Value :=
  match s with
  | none => Value.null
  | some s => Value.str s

/-- The `action` enum of `ChatRequest`. -/
inductive ChatAction where
  | simplify
  | explain10
  | flashcards
  | quiz
deriving DecidableEq

/-- The three response shapes of `POST /chat`. -/
inductive ChatResponse where
  | answer (doubtId : String) (text : String)
  | flashcards (flashcardId : String) (items : List FItem)
  | quiz (quizId : String) (questions : List QuizQ)
deriving DecidableEq

/-- The `POST /chat` handler: builds the rule-based reply, creates one
document in `flashcard` (action `flashcards`), `quiz` (action `quiz`) or
`doubt` (every other action), and returns the corresponding response. -/
def chat (userId message : String) (action : Option ChatAction)
    (tC tU tM : Nat) (st : Store) : ChatResponse × Store :=
  let msg := pyStrip message
  match action with
  | some ChatAction.flashcards =>
      let items : List FItem :=
        [⟨"What is: " ++ msg ++ "?", "Definition in 1-2 lines"⟩,
         ⟨"Why is " ++ msg ++ " important?", "Key reason"⟩]
      let r := create_document "flashcard"
        [("user_id", Value.str userId), ("topic", Value.str msg),
         ("items", Value.fitems items)] tC tU tM st
      (ChatResponse.flashcards r.1 items, r.2)
  | some ChatAction.quiz =>
      let questions : List QuizQ :=
        [⟨"Explain " ++ msg ++ " in one line", QType.short, none, none⟩,
         ⟨"Which is true about " ++ msg ++ "?", QType.mcq,
          some ["A", "B", "C", "D"], some "A"⟩]
      let r := create_document "quiz"
        [("user_id", Value.str userId), ("topic", Value.str msg),
         ("questions", Value.qlist questions)] tC tU tM st
      (ChatResponse.quiz r.1 questions, r.2)
  | some ChatAction.explain10 =>
      let answer := "Imagine you are 10: " ++ msg ++
        " means we break it into super simple ideas and examples so it's easy to get."
      let r := create_document "doubt"
        [("user_id", Value.str userId), ("source", Value.str "text"),
         ("prompt", Value.str msg), ("answer", Value.str answer)] tC tU tM st
      (ChatResponse.answer r.1 answer, r.2)
  | some ChatAction.simplify =>
      let answer := "Simplified: " ++ msg ++ " in plain words with fewer steps."
      let r := create_document "doubt"
        [("user_id", Value.str userId), ("source", Value.str "text"),
         ("prompt", Value.str msg), ("answer", Value.str answer)] tC tU tM st
      (ChatResponse.answer r.1 answer, r.2)
  | none =>
      let answer := "Answer for '" ++ msg ++
        "': here's a clear explanation with steps where needed."
      let r := create_document "doubt"
        [("user_id", Value.str userId), ("source", Value.str "text"),
         ("prompt", Value.str msg), ("answer", Value.str answer)] tC tU tM st
      (ChatResponse.answer r.1 answer, r.2)

/-- The item list built by `POST /flashcards`:
`for i in range(max(1, min(req.count, 20)))`. -/
def flashcardItems (topic : Option String) (count : Int) : List FItem :=
  (List.range (max 1 (min count 20)).toNat).map
    (fun i => ⟨"Q" ++ natStr (i + 1) ++ " about " ++ pyOrStr topic "topic",
               "Concise answer"⟩)

/-- The `POST /flashcards` handler: generate the clamped item list and
store one `flashcard` document. -/
def generate_flashcards (userId : String) (subject topic : Option String)
    (count : Int) (tC tU tM : Nat) (st : Store) :
    (String × List FItem) × Store :=
  let items := flashcardItems topic count
  let r := create_document "flashcard"
    [("user_id", Value.str userId), ("subject", optVal subject),
     ("topic", optVal topic), ("items", Value.fitems items)] tC tU tM st
  ((r.1, items), r.2)

/-- The question list built by `POST /quiz`: index `i` is an mcq question
with options A–D and answer A when `i` is even, a short question when `i`
is odd. -/
def quizQuestions (topic : String) (count : Nat) : List QuizQ :=
  (List.range count).map (fun i =>
    if i % 2 = 0 then
      ⟨"MCQ on " ++ topic ++ " #" ++ natStr (i + 1), QType.mcq,
       some ["A", "B", "C", "D"], some "A"⟩
    else
      ⟨"Short answer on " ++ topic ++ " #" ++ natStr (i + 1), QType.short,
       none, none⟩)

/-- The `POST /quiz` handler: generate the question list and store one
`quiz` document. -/
def generate_quiz (userId topic : String) (count : Nat) (tC tU tM : Nat)
    (st : Store) : (String × List QuizQ) × Store :=
  let questions := quizQuestions topic count
  let r := create_document "quiz"
    [("user_id", Value.str userId), ("topic", Value.str topic),
     ("questions", Value.qlist questions)] tC tU tM st
  ((r.1, questions), r.2)

/-- The task list built by `POST /planner`:
`per_day = max(1, daily_minutes // max(1, len(subjects)))` (Python `//` is
floor division) and one task per subject, in order. -/
def planTasks (dailyMinutes : Int) (subjects : List String) : List Task :=
  let perDay := max 1 (Int.fdiv dailyMinutes (max 1 (subjects.length : Int)))
  subjects.enum.map (fun p =>
    ⟨"D+" ++ natStr (p.1 + 1), p.2, "Core concepts " ++ natStr (p.1 + 1), perDay⟩)

/-- The `POST /planner` handler: generate the task list and store one
`studyplan` document. -/
def create_plan (userId examDate : String) (dailyMinutes : Int)
    (subjects : List String) (tC tU tM : Nat) (st : Store) :
    (String × List Task) × Store :=
  let tasks := planTasks dailyMinutes subjects
  let r := create_document "studyplan"
    [("user_id", Value.str userId), ("exam_date", Value.str examDate),
     ("daily_minutes", Value.int dailyMinutes),
     ("subjects", Value.strList subjects), ("tasks", Value.tlist tasks)]
    tC tU tM st
  ((r.1, tasks), r.2)

/-- One pending `create_document` call: target collection, payload, and
the three clock readings the call will observe. -/
structure CreateOp where
  coll : String
  data : Doc
  tC : Nat
  tU : Nat
  tM : Nat

/-- Run a sequence of `create_document` calls in order, collecting the
(collection, returned id) pairs. -/
def runCreates (ops : List CreateOp) (st : Store) :
    List (String × String) × Store :=
  match ops with
  | [] => ([], st)
  | op :: rest =>
      let r := create_document op.coll op.data op.tC op.tU op.tM st
      let rr := runCreates rest r.2
      ((op.coll, r.1) :: rr.1, rr.2)

/-- The ids a run of creates hands out for one collection `c`, in call
order. -/
def idsFor (ops : List CreateOp) (st : Store) (c : String) : List String :=
  ((runCreates ops st).1.filter (fun p => p.1 = c)).map (fun p => p.2)

/-! ### Dictionary lemmas -/

theorem alistGet_dictSet_self {α : Type} (l : List (String × α)) (k : String)
    (v : α) : alistGet (dictSet l k v) k = some v := by
  induction l with
  | nil => simp [dictSet, alistGet]
  | cons p rest ih =>
      by_cases h : p.1 = k
      · simp [dictSet, alistGet, h]
      · simp [dictSet, alistGet, h, ih]

theorem alistGet_dictSet_ne {α : Type} (l : List (String × α)) (k k' : String)
    (v : α) (h : k' ≠ k) : alistGet (dictSet l k v) k' = alistGet l k' := by
  induction l with
  | nil => simp [dictSet, alistGet, Ne.symm h]
  | cons p rest ih =>
      by_cases hp : p.1 = k
      · simp [dictSet, alistGet, hp, Ne.symm h]
      · simp [dictSet, alistGet, hp, ih]

theorem pyGet_dictSet_self (d : Doc) (k : String) (v : Value) :
    pyGet (dictSet d k v) k = v := by
  simp [pyGet, alistGet_dictSet_self]

theorem pyGet_dictSet_ne (d : Doc) (k k' : String) (v : Value) (h : k' ≠ k) :
    pyGet (dictSet d k v) k' = pyGet d k' := by
  simp [pyGet, alistGet_dictSet_ne _ _ _ _ h]

/-! ### Decimal rendering lemmas -/

theorem digitChar_inj_lt : ∀ a, a < 10 → ∀ b, b < 10 →
    Nat.digitChar a = Nat.digitChar b → a = b := by decide

theorem digitChar_ne_dash : ∀ a, a < 10 → Nat.digitChar a ≠ '-' := by decide

theorem natDecimalAux_eq (fuel : Nat) :
    ∀ n, n ≤ fuel → natDecimalAux fuel n
      = ((Nat.digits 10 n).map Nat.digitChar).reverse := by
  induction fuel with
  | zero =>
      intro n hn
      have hz : n = 0 := Nat.le_zero.mp hn
      subst hz
      simp [natDecimalAux]
  | succ f ih =>
      intro n hn
      cases n with
      | zero => simp [natDecimalAux]
      | succ m =>
          rw [show natDecimalAux (f + 1) (m + 1)
              = natDecimalAux f ((m + 1) / 10)
                ++ [Nat.digitChar ((m + 1) % 10)] from rfl]
          rw [ih ((m + 1) / 10) (by
            have := Nat.div_lt_self (Nat.succ_pos m) (by norm_num : 1 < 10)
            omega)]
          rw [Nat.digits_def' (by norm_num : (1 : Nat) < 10) (Nat.succ_pos m)]
          simp

theorem natDecimal_eq_digits (n : Nat) :
    natDecimal n
      = if n = 0 then ['0']
        else ((Nat.digits 10 n).map Nat.digitChar).reverse := by
  unfold natDecimal
  by_cases h : n = 0
  · simp [h]
  · rw [if_neg h, if_neg h, natDecimalAux_eq n n (le_refl n)]

theorem natDecimal_ne_dash (n : Nat) : ∀ ch ∈ natDecimal n, ch ≠ '-' := by
  intro ch hch
  rw [natDecimal_eq_digits] at hch
  by_cases h : n = 0
  · simp [h] at hch
    subst hch; decide
  · simp [h] at hch
    obtain ⟨d, hd, rfl⟩ := hch
    exact digitChar_ne_dash d (Nat.digits_lt_base (by norm_num) hd)

theorem map_digitChar_inj : ∀ (l₁ l₂ : List Nat), (∀ x ∈ l₁, x < 10) →
    (∀ x ∈ l₂, x < 10) → l₁.map Nat.digitChar = l₂.map Nat.digitChar →
    l₁ = l₂ := by
  intro l₁
  induction l₁ with
  | nil => intro l₂ _ _ h; cases l₂ <;> simp_all
  | cons x xs ih =>
      intro l₂ h₁ h₂ h
      cases l₂ with
      | nil => simp at h
      | cons y ys =>
          simp only [List.map_cons, List.cons.injEq] at h
          have hx : x = y := digitChar_inj_lt x (h₁ x (by simp)) y
            (h₂ y (by simp)) h.1
          have : xs = ys := ih ys (fun z hz => h₁ z (by simp [hz]))
            (fun z hz => h₂ z (by simp [hz])) h.2
          simp [hx, this]

theorem map_digitChar_eq_zeroStr {n : Nat}
    (hrev : (Nat.digits 10 n).map Nat.digitChar = ['0']) : n = 0 := by
  cases hds : Nat.digits 10 n with
  | nil => rw [hds] at hrev; simp at hrev
  | cons d rest =>
      rw [hds] at hrev
      simp only [List.map_cons, List.cons.injEq] at hrev
      obtain ⟨hd0, hrest⟩ := hrev
      have hrest' : rest = [] := by
        cases rest with
        | nil => rfl
        | cons a b => simp at hrest
      have hmem : d ∈ Nat.digits 10 n := by
        rw [hds]; exact List.mem_cons_self d rest
      have hd10 : d < 10 := Nat.digits_lt_base (by norm_num) hmem
      have hd : d = 0 := digitChar_inj_lt d hd10 0 (by norm_num)
        (by rw [hd0]; decide)
      have hofd := Nat.ofDigits_digits 10 n
      rw [hds, hrest', hd] at hofd
      simpa [Nat.ofDigits] using hofd.symm

theorem natDecimal_inj {m n : Nat} (h : natDecimal m = natDecimal n) :
    m = n := by
  rw [natDecimal_eq_digits, natDecimal_eq_digits] at h
  by_cases hm : m = 0 <;> by_cases hn : n = 0
  · exact hm.trans hn.symm
  · rw [if_pos hm, if_neg hn] at h
    have hrev : (Nat.digits 10 n).map Nat.digitChar = ['0'] := by
      have hh := congrArg List.reverse h
      simpa using hh.symm
    exact absurd (map_digitChar_eq_zeroStr hrev) hn
  · rw [if_neg hm, if_pos hn] at h
    have hrev : (Nat.digits 10 m).map Nat.digitChar = ['0'] := by
      have hh := congrArg List.reverse h
      simpa using hh
    exact absurd (map_digitChar_eq_zeroStr hrev) hm
  · rw [if_neg hm, if_neg hn] at h
    have hmap : (Nat.digits 10 m).map Nat.digitChar
        = (Nat.digits 10 n).map Nat.digitChar := by
      have hh := congrArg List.reverse h
      simpa using hh
    have hdig : Nat.digits 10 m = Nat.digits 10 n :=
      map_digitChar_inj _ _
        (fun x hx => Nat.digits_lt_base (by norm_num) hx)
        (fun x hx => Nat.digits_lt_base (by norm_num) hx) hmap
    have h1 := Nat.ofDigits_digits 10 m
    have h2 := Nat.ofDigits_digits 10 n
    rw [← h1, ← h2, hdig]

/-! ### Extracting the sequence suffix of a pseudo id -/

/-- The maximal dash-free suffix of a character list (everything after the
last `'-'`). -/
def afterLastDash (l : List Char) : List Char :=
  (l.reverse.takeWhile (fun ch => ch != '-')).reverse

theorem takeWhile_append_stop (p : Char → Bool) (a : List Char) (y : Char)
    (b : List Char) (ha : ∀ x ∈ a, p x = true) (hy : p y = false) :
    (a ++ y :: b).takeWhile p = a := by
  induction a with
  | nil => simp [List.takeWhile_cons, hy]
  | cons x xs ih =>
      have hx : p x = true := ha x (by simp)
      simp only [List.cons_append, List.takeWhile_cons, hx, if_true]
      rw [ih (fun z hz => ha z (by simp [hz]))]

theorem afterLastDash_append (a b : List Char) (hb : ∀ x ∈ b, x ≠ '-') :
    afterLastDash (a ++ '-' :: b) = b := by
  unfold afterLastDash
  have h1 : (a ++ '-' :: b).reverse = b.reverse ++ '-' :: a.reverse := by
    simp
  rw [h1, takeWhile_append_stop _ _ _ _ ?_ (by decide), List.reverse_reverse]
  intro x hx
  simpa using hb x (List.mem_reverse.mp hx)

theorem string_data_append (s t : String) : (s ++ t).data = s.data ++ t.data := by
  cases s; cases t; rfl

theorem pseudoId_data (c : String) (t n : Nat) :
    (pseudoId c t n).data
      = ("demo-".data ++ c.data ++ '-' :: natDecimal t) ++ '-' :: natDecimal n := by
  simp [pseudoId, natStr, string_data_append]

theorem afterLastDash_pseudoId (c : String) (t n : Nat) :
    afterLastDash (pseudoId c t n).data = natDecimal n := by
  rw [pseudoId_data]
  exact afterLastDash_append _ _ (natDecimal_ne_dash n)

theorem pseudoId_inj_seq {c : String} {t₁ t₂ n₁ n₂ : Nat}
    (h : pseudoId c t₁ n₁ = pseudoId c t₂ n₂) : n₁ = n₂ := by
  have hd := congrArg String.data h
  have h1 := afterLastDash_pseudoId c t₁ n₁
  have h2 := afterLastDash_pseudoId c t₂ n₂
  exact natDecimal_inj (by rw [← h1, ← h2, hd])

theorem pseudoId_ne_empty (c : String) (t n : Nat) : pseudoId c t n ≠ "" := by
  intro h
  have hd := congrArg String.data h
  rw [pseudoId_data] at hd
  simp at hd

/-! ### Effect of `create_document` on the store -/

theorem create_document_id (c : String) (d : Doc) (tC tU tM : Nat)
    (st : Store) :
    (create_document c d tC tU tM st).1 = pseudoId c tM (collLen st c + 1) :=
  rfl

theorem storedColl_create_self (c : String) (d : Doc) (tC tU tM : Nat)
    (st : Store) :
    storedColl (create_document c d tC tU tM st).2 c
      = storedColl st c ++
        [dictSet (dictSet (dictSet d "created_at" (Value.time tC))
            "updated_at" (Value.time tU)) "_id"
            (Value.str (pseudoId c tM (collLen st c + 1)))] := by
  simp [create_document, storedColl, alistGet_dictSet_self, collLen]

theorem storedColl_create_ne (c c' : String) (h : c' ≠ c) (d : Doc)
    (tC tU tM : Nat) (st : Store) :
    storedColl (create_document c d tC tU tM st).2 c' = storedColl st c' := by
  simp [create_document, storedColl, alistGet_dictSet_ne _ _ _ _ h]

theorem collLen_create_self (c : String) (d : Doc) (tC tU tM : Nat)
    (st : Store) :
    collLen (create_document c d tC tU tM st).2 c = collLen st c + 1 := by
  simp [collLen, storedColl_create_self]

theorem collLen_create_ne (c c' : String) (h : c' ≠ c) (d : Doc)
    (tC tU tM : Nat) (st : Store) :
    collLen (create_document c d tC tU tM st).2 c' = collLen st c' := by
  simp [collLen, storedColl_create_ne c c' h]

/-- Fields of the document a fallback create appends. -/
theorem create_newDoc_fields (c : String) (d : Doc) (tC tU tM : Nat)
    (st : Store) :
    pyGet (dictSet (dictSet (dictSet d "created_at" (Value.time tC))
        "updated_at" (Value.time tU)) "_id"
        (Value.str (pseudoId c tM (collLen st c + 1)))) "_id"
      = Value.str (pseudoId c tM (collLen st c + 1))
  ∧ pyGet (dictSet (dictSet (dictSet d "created_at" (Value.time tC))
        "updated_at" (Value.time tU)) "_id"
        (Value.str (pseudoId c tM (collLen st c + 1)))) "created_at"
      = Value.time tC
  ∧ pyGet (dictSet (dictSet (dictSet d "created_at" (Value.time tC))
        "updated_at" (Value.time tU)) "_id"
        (Value.str (pseudoId c tM (collLen st c + 1)))) "updated_at"
      = Value.time tU := by
  refine ⟨pyGet_dictSet_self _ _ _, ?_, ?_⟩
  · rw [pyGet_dictSet_ne _ _ _ _ (by decide),
      pyGet_dictSet_ne _ _ _ _ (by decide), pyGet_dictSet_self]
  · rw [pyGet_dictSet_ne _ _ _ _ (by decide), pyGet_dictSet_self]

/-! ### Uniqueness of ids over a run of sequential creates -/

theorem idsFor_cons (op : CreateOp) (rest : List CreateOp) (st : Store)
    (c : String) :
    idsFor (op :: rest) st c
      = if op.coll = c
        then (create_document op.coll op.data op.tC op.tU op.tM st).1
             :: idsFor rest (create_document op.coll op.data op.tC op.tU op.tM st).2 c
        else idsFor rest (create_document op.coll op.data op.tC op.tU op.tM st).2 c := by
  by_cases h : op.coll = c <;> simp [idsFor, runCreates, h]

theorem idsFor_lower (ops : List CreateOp) :
    ∀ (st : Store) (c id : String), id ∈ idsFor ops st c →
      ∃ t n, id = pseudoId c t n ∧ collLen st c < n := by
  induction ops with
  | nil => intro st c id h; simp [idsFor, runCreates] at h
  | cons op rest ih =>
      intro st c id h
      rw [idsFor_cons] at h
      by_cases hc : op.coll = c
      · rw [if_pos hc] at h
        subst hc
        rcases List.mem_cons.mp h with h1 | h1
        · exact ⟨op.tM, collLen st op.coll + 1, h1, Nat.lt_succ_self _⟩
        · obtain ⟨t, n, hid, hlt⟩ := ih _ op.coll id h1
          rw [collLen_create_self] at hlt
          exact ⟨t, n, hid, by omega⟩
      · rw [if_neg hc] at h
        obtain ⟨t, n, hid, hlt⟩ := ih _ c id h
        rw [collLen_create_ne _ _ (fun hh => hc hh.symm)] at hlt
        exact ⟨t, n, hid, hlt⟩

theorem idsFor_nodup (ops : List CreateOp) :
    ∀ (st : Store) (c : String), (idsFor ops st c).Nodup := by
  induction ops with
  | nil => intro st c; simp [idsFor, runCreates]
  | cons op rest ih =>
      intro st c
      rw [idsFor_cons]
      by_cases hc : op.coll = c
      · rw [if_pos hc]
        subst hc
        refine List.nodup_cons.mpr ⟨?_, ih _ op.coll⟩
        intro hmem
        obtain ⟨t, n, hid, hlt⟩ := idsFor_lower rest _ op.coll _ hmem
        rw [collLen_create_self] at hlt
        rw [create_document_id] at hid
        have := pseudoId_inj_seq hid
        omega
      · rw [if_neg hc]
        exact ih _ c

/-! ### The filter of `get_documents` -/

/-- The filter predicate exactly as the spec sentence states it: every
filter key is present on the record and equal to the filter value. -/
def claimMatches (fd d : Doc) : Prop :=
  ∀ p ∈ fd, alistGet d p.1 = some p.2

/-- The predicate the code actually decides: `doc.get(k)` — with a missing
key reading as `None` — equals the filter value for every filter pair. -/
def specMatches (fd d : Doc) : Prop :=
  ∀ p ∈ fd, pyGet d p.1 = p.2

instance specMatchesDecidable (fd d : Doc) : Decidable (specMatches fd d) := by
  unfold specMatches
  infer_instance

theorem matchesFilter_iff (fd d : Doc) :
    matchesFilter fd d = true ↔ specMatches fd d := by
  simp [matchesFilter, specMatches, List.all_eq_true]

theorem matchesFilter_eq_decide (fd d : Doc) :
    matchesFilter fd d = decide (specMatches fd d) := by
  by_cases h : specMatches fd d
  · simp [h, (matchesFilter_iff fd d).mpr h]
  · have : ¬ matchesFilter fd d = true := fun hh => h ((matchesFilter_iff fd d).mp hh)
    simp [h, Bool.not_eq_true] at this ⊢
    exact this

theorem get_documents_none_eq (c : String) (fd : Doc) (st : Store) :
    get_documents c fd none st = (storedColl st c).filter (matchesFilter fd) :=
  rfl

/-- C2 (amended): fallback `find` with no limit returns exactly the
subsequence, in insertion order, of stored records whose `doc.get` value —
with a missing key reading as `None` — agrees with every filter pair; the
empty filter returns the whole collection in creation order. -/
theorem find_fallback_filter_exact (c : String) (fd : Doc) (st : Store) :
    get_documents c fd none st
      = (storedColl st c).filter (fun d => decide (specMatches fd d))
  ∧ (get_documents c fd none st).Sublist (storedColl st c)
  ∧ (∀ d, d ∈ get_documents c fd none st
        ↔ d ∈ storedColl st c ∧ specMatches fd d)
  ∧ get_documents c [] none st = storedColl st c := by
  refine ⟨?_, ?_, ?_, ?_⟩
  · rw [get_documents_none_eq]
    exact List.filter_congr (fun d _ => matchesFilter_eq_decide fd d)
  · rw [get_documents_none_eq]
    exact List.filter_sublist _
  · intro d
    rw [get_documents_none_eq, List.mem_filter, matchesFilter_iff]
  · rw [get_documents_none_eq]
    have : ∀ d ∈ storedColl st c, matchesFilter [] d = true := by
      intro d _; simp [matchesFilter]
    rw [List.filter_congr (fun d hd => this d hd)]
    simp

/-- C2 counterexample: with filter `{"k": None}` the code returns a stored
record that does not carry the key `"k"` at all, because `doc.get("k")`
yields `None` for the missing key; the claim says such a record is
excluded. -/
theorem find_fallback_null_filter_counterexample :
    get_documents "c" [("k", Value.null)] none [("c", [([] : Doc)])]
      = [([] : Doc)]
  ∧ ¬ claimMatches [("k", Value.null)] ([] : Doc) := by
  constructor
  · rfl
  · intro h
    have := h ("k", Value.null) (by simp)
    simp [alistGet] at this

/-- C2 witness: the membership characterization applied at a concrete
store, filter and record. -/
theorem find_fallback_filter_exact_witness :
    ([("a", Value.int 1)] : Doc) ∈
        get_documents "c" [("a", Value.int 1)] none
          [("c", [[("a", Value.int 1)], [("a", Value.int 2)]])]
      ↔ ([("a", Value.int 1)] : Doc) ∈
          storedColl [("c", [[("a", Value.int 1)], [("a", Value.int 2)]])] "c"
        ∧ specMatches [("a", Value.int 1)] [("a", Value.int 1)] :=
  (find_fallback_filter_exact "c" [("a", Value.int 1)]
    [("c", [[("a", Value.int 1)], [("a", Value.int 2)]])]).2.2.1
    [("a", Value.int 1)]

/-- C1 (amended): for a positive limit `N`, fallback `find` returns
exactly `min N (number of matching records)` records — never more than
`N`, and fewer than `N` only if fewer than `N` stored records match.
(The counterexample shows `N = 0` is ignored by `if limit:`.) -/
theorem find_fallback_limit_pos (c : String) (fd : Doc) (st : Store)
    (N : Int) (h : 0 < N) :
    (get_documents c fd (some N) st).length
      = min N.toNat (get_documents c fd none st).length
  ∧ (get_documents c fd (some N) st).length ≤ N.toNat
  ∧ ((get_documents c fd (some N) st).length < N.toNat →
      (get_documents c fd none st).length < N.toNat) := by
  have hne : N ≠ 0 := by omega
  have hle : (0 : Int) ≤ N := le_of_lt h
  have hmain : (get_documents c fd (some N) st).length
      = min N.toNat (get_documents c fd none st).length := by
    simp [get_documents, hne, pyTake, hle]
  refine ⟨hmain, ?_, ?_⟩
  · rw [hmain]; exact Nat.min_le_left _ _
  · intro hlt
    rw [hmain] at hlt
    rcases Nat.le_total N.toNat (get_documents c fd none st).length with
      hcase | hcase
    · rw [Nat.min_eq_left hcase] at hlt; omega
    · rw [Nat.min_eq_right hcase] at hlt; exact hlt

/-- C1 counterexample: with `limit=0` and one stored record, fallback
`find` returns that record — more than `0` records — because `if limit:`
treats `0` as false and skips the truncation. -/
theorem find_fallback_limit_zero_counterexample :
    ¬ ((get_documents "c" [] (some 0) [("c", [([] : Doc)])]).length ≤ 0) := by
  decide

/-- C1 witness: the amended statement applied at limit `1` over a
collection holding two records. -/
theorem find_fallback_limit_pos_witness :
    (0 : Int) < 1
  ∧ (get_documents "c" [] (some 1) [("c", [([] : Doc), []])]).length
      = min (1 : Int).toNat
          (get_documents "c" [] none [("c", [([] : Doc), []])]).length :=
  ⟨by decide, (find_fallback_limit_pos "c" [] [("c", [[], []])] 1 (by decide)).1⟩

/-- C3: every fallback create returns the id
`demo-<collection>-<epoch-millis>-<collection length + 1>`, that id is
non-empty and stored on the appended record under `_id`, and across any
sequence of sequential creates the ids handed out for any one collection
are pairwise distinct. -/
theorem create_ids_unique (ops : List CreateOp) (st : Store) (c : String)
    (d : Doc) (tC tU tM : Nat) :
    (idsFor ops st c).Nodup
  ∧ (create_document c d tC tU tM st).1 = pseudoId c tM (collLen st c + 1)
  ∧ (create_document c d tC tU tM st).1 ≠ ""
  ∧ pyGet ((storedColl (create_document c d tC tU tM st).2 c).getLastD [])
      "_id" = Value.str (create_document c d tC tU tM st).1 := by
  refine ⟨idsFor_nodup ops st c, rfl, pseudoId_ne_empty c tM _, ?_⟩
  rw [storedColl_create_self, List.getLastD_concat]
  exact (create_newDoc_fields c d tC tU tM st).1

/-- C6 (amended): the record a fallback create appends carries
`created_at` from the first clock reading of the call and `updated_at`
from the second; the two fields are equal whenever those two readings
coincide, but the code performs two separate `datetime.now` calls, so
equality is not guaranteed. -/
theorem create_timestamps (c : String) (d : Doc) (tC tU tM : Nat)
    (st : Store) :
    pyGet ((storedColl (create_document c d tC tU tM st).2 c).getLastD [])
        "created_at" = Value.time tC
  ∧ pyGet ((storedColl (create_document c d tC tU tM st).2 c).getLastD [])
        "updated_at" = Value.time tU
  ∧ (tC = tU →
      pyGet ((storedColl (create_document c d tC tU tM st).2 c).getLastD [])
          "created_at"
        = pyGet ((storedColl (create_document c d tC tU tM st).2 c).getLastD [])
            "updated_at") := by
  have hfields := create_newDoc_fields c d tC tU tM st
  refine ⟨?_, ?_, ?_⟩
  · rw [storedColl_create_self, List.getLastD_concat]
    exact hfields.2.1
  · rw [storedColl_create_self, List.getLastD_concat]
    exact hfields.2.2
  · intro heq
    rw [storedColl_create_self, List.getLastD_concat, hfields.2.1,
      hfields.2.2, heq]

/-- C6 counterexample: when the two clock readings of one create call
differ (first reading 0, second reading 1), the stored `created_at` and
`updated_at` differ, so they are not always equal as the claim states. -/
theorem create_timestamps_counterexample :
    pyGet ((storedColl (create_document "c" [] 0 1 0 []).2 "c").getLastD [])
        "created_at"
      ≠ pyGet ((storedColl (create_document "c" [] 0 1 0 []).2 "c").getLastD [])
          "updated_at" := by
  decide

/-- C6 witness: the amended statement applied at a concrete call whose
two clock readings coincide. -/
theorem create_timestamps_witness :
    (3 : Nat) = 3
  ∧ pyGet ((storedColl (create_document "c" [] 3 3 7 []).2 "c").getLastD [])
        "created_at"
      = pyGet ((storedColl (create_document "c" [] 3 3 7 []).2 "c").getLastD [])
          "updated_at" :=
  ⟨rfl, (create_timestamps "c" [] 3 3 7 []).2.2 rfl⟩

/-- C9: a fallback create appends exactly one record at the end of the
target collection — every previously stored record of that collection
stays in place — and every other collection is untouched. -/
theorem create_frame (c : String) (d : Doc) (tC tU tM : Nat) (st : Store) :
    (storedColl (create_document c d tC tU tM st).2 c).length
      = collLen st c + 1
  ∧ (storedColl (create_document c d tC tU tM st).2 c).take (collLen st c)
      = storedColl st c
  ∧ ∀ c', c' ≠ c →
      storedColl (create_document c d tC tU tM st).2 c' = storedColl st c' := by
  refine ⟨collLen_create_self c d tC tU tM st, ?_,
    fun c' h => storedColl_create_ne c c' h d tC tU tM st⟩
  rw [storedColl_create_self, List.take_append_of_le_length (by simp [collLen]),
    List.take_of_length_le (by simp [collLen])]

/-- C9 witness: the frame property applied at a concrete store, including
the untouched-collection part at collection `"x"`. -/
theorem create_frame_witness :
    ("x" : String) ≠ "c"
  ∧ storedColl (create_document "c" [] 0 0 0 [("x", [[]])]).2 "x"
      = storedColl [("x", [([] : Doc)])] "x" :=
  ⟨by decide, (create_frame "c" [] 0 0 0 [("x", [[]])]).2.2 "x" (by decide)⟩

/-! ### Quiz, flashcard and planner generators -/

/-- C4 counterexample: quiz generation with `count=5` produces 3 mcq
questions (indices 0, 2, 4), not 2 as the claim states. -/
theorem quiz_count5_counterexample :
    ¬ ((quizQuestions "t" 5).countP
        (fun q => decide (q.type = QType.mcq)) = 2) := by
  decide

/-- C4 (amended): quiz generation with `count=5` produces exactly 3 mcq
questions and 2 short questions, for every topic. -/
theorem quiz_count5_counts (topic : String) :
    (quizQuestions topic 5).countP (fun q => decide (q.type = QType.mcq)) = 3
  ∧ (quizQuestions topic 5).countP
      (fun q => decide (q.type = QType.short)) = 2 := by
  constructor <;> rfl

/-- C5: for `count` in {5, 10} the generated question list has exactly
`count` entries; every even index holds an mcq question with options
A–D and answer A, every odd index holds a short question. -/
theorem quiz_alternates (topic : String) (count : Nat)
    (h : count = 5 ∨ count = 10) :
    (quizQuestions topic count).length = count
  ∧ ∀ i, ∀ hi : i < (quizQuestions topic count).length,
      (i % 2 = 0 →
        ((quizQuestions topic count).get ⟨i, hi⟩).type = QType.mcq
      ∧ ((quizQuestions topic count).get ⟨i, hi⟩).options
          = some ["A", "B", "C", "D"]
      ∧ ((quizQuestions topic count).get ⟨i, hi⟩).answer = some "A")
    ∧ (i % 2 = 1 →
        ((quizQuestions topic count).get ⟨i, hi⟩).type = QType.short) := by
  refine ⟨by simp [quizQuestions], ?_⟩
  intro i hi
  constructor
  · intro hmod
    refine ⟨?_, ?_, ?_⟩ <;>
      simp [quizQuestions, List.get_eq_getElem, hmod]
  · intro hmod
    have hne : ¬ (i % 2 = 0) := by omega
    simp [quizQuestions, List.get_eq_getElem, hne]

/-- C5 witness: the alternation statement applied at topic `"t"` and
`count = 5`, extracting the length and the type at index 0. -/
theorem quiz_alternates_witness :
    ((5 : Nat) = 5 ∨ (5 : Nat) = 10)
  ∧ (quizQuestions "t" 5).length = 5 :=
  ⟨Or.inl rfl, (quiz_alternates "t" 5 (Or.inl rfl)).1⟩

/-- C7: the flashcard item count is `count` clamped to 1..20: at least 1,
at most 20, equal to `count` inside the range, 20 above it, 1 below it;
concretely 5 ↦ 5, 25 ↦ 20, 0 ↦ 1. -/
theorem flashcards_count_clamped (topic : Option String) (count : Int) :
    1 ≤ (flashcardItems topic count).length
  ∧ (flashcardItems topic count).length ≤ 20
  ∧ (1 ≤ count → count ≤ 20 →
      (flashcardItems topic count).length = count.toNat)
  ∧ (20 < count → (flashcardItems topic count).length = 20)
  ∧ (count < 1 → (flashcardItems topic count).length = 1)
  ∧ (flashcardItems topic 5).length = 5
  ∧ (flashcardItems topic 25).length = 20
  ∧ (flashcardItems topic 0).length = 1 := by
  have hl : ∀ n : Int, (flashcardItems topic n).length
      = (max 1 (min n 20)).toNat := by
    intro n
    simp [flashcardItems]
  refine ⟨?_, ?_, ?_, ?_, ?_, ?_, ?_, ?_⟩
  · rw [hl]; omega
  · rw [hl]; omega
  · intro h1 h2; rw [hl]; omega
  · intro h1; rw [hl]; omega
  · intro h1; rw [hl]; omega
  · rw [hl]; rfl
  · rw [hl]; rfl
  · rw [hl]; rfl

/-- C7 witness: the clamping statement applied at `count = 25`. -/
theorem flashcards_count_clamped_witness :
    (20 : Int) < 25 ∧ (flashcardItems none 25).length = 20 :=
  ⟨by decide, (flashcards_count_clamped none 25).2.2.2.1 (by decide)⟩

/-- C8: the planner emits one task per subject, each carrying
`max 1 (daily_minutes // number_of_subjects)` minutes (Python floor
division); concretely `subjects=["Math","Science"], daily_minutes=40`
yields two tasks of 20 minutes. -/
theorem plan_minutes (dailyMinutes : Int) (subjects : List String) :
    (planTasks dailyMinutes subjects).length = subjects.length
  ∧ (∀ t ∈ planTasks dailyMinutes subjects,
      t.minutes = max 1 (Int.fdiv dailyMinutes (subjects.length : Int)))
  ∧ (planTasks 40 ["Math", "Science"]).map Task.minutes = [20, 20] := by
  refine ⟨by simp [planTasks], ?_, by rfl⟩
  intro t ht
  simp only [planTasks, List.mem_map] at ht
  obtain ⟨p, hp, rfl⟩ := ht
  have hlen : subjects.length ≠ 0 := by
    intro h0
    have hnil : subjects = [] := List.length_eq_zero.mp h0
    subst hnil
    simp at hp
  have hl1 : (1 : Int) ≤ (subjects.length : Int) := by
    have h1 : 1 ≤ subjects.length := Nat.one_le_iff_ne_zero.mpr hlen
    exact_mod_cast h1
  have hmax : max (1 : Int) (subjects.length : Int) = (subjects.length : Int) :=
    max_eq_right hl1
  simp [hmax]

/-- C8 witness: the per-task statement applied at the concrete request
`subjects=["Math","Science"], daily_minutes=40` and its first task. -/
theorem plan_minutes_witness :
    (⟨"D+1", "Math", "Core concepts 1", 20⟩ : Task)
        ∈ planTasks 40 ["Math", "Science"]
  ∧ (⟨"D+1", "Math", "Core concepts 1", 20⟩ : Task).minutes
      = max 1 (Int.fdiv 40 ((["Math", "Science"] : List String).length : Int)) :=
  ⟨by decide, (plan_minutes 40 ["Math", "Science"]).2.1 _ (by decide)⟩

/-- C10: `POST /chat` creates exactly one document in `flashcard` for
action `flashcards`, exactly one in `quiz` for action `quiz`, and exactly
one in `doubt` for `simplify`, `explain10` or no action — never more than
one, and never in the other two of those collections. -/
theorem chat_collections (userId message : String)
    (action : Option ChatAction) (tC tU tM : Nat) (st : Store) :
    collLen (chat userId message action tC tU tM st).2 "flashcard"
      = collLen st "flashcard"
        + (if action = some ChatAction.flashcards then 1 else 0)
  ∧ collLen (chat userId message action tC tU tM st).2 "quiz"
      = collLen st "quiz" + (if action = some ChatAction.quiz then 1 else 0)
  ∧ collLen (chat userId message action tC tU tM st).2 "doubt"
      = collLen st "doubt"
        + (if action = some ChatAction.flashcards
              ∨ action = some ChatAction.quiz then 0 else 1) := by
  cases action with
  | none =>
      refine ⟨?_, ?_, ?_⟩
      · simp only [chat]
        rw [collLen_create_ne "doubt" "flashcard" (by decide)]
        simp
      · simp only [chat]
        rw [collLen_create_ne "doubt" "quiz" (by decide)]
        simp
      · simp only [chat]
        rw [collLen_create_self]
        simp
  | some a =>
      cases a with
      | simplify =>
          refine ⟨?_, ?_, ?_⟩
          · simp only [chat]
            rw [collLen_create_ne "doubt" "flashcard" (by decide)]
            simp
          · simp only [chat]
            rw [collLen_create_ne "doubt" "quiz" (by decide)]
            simp
          · simp only [chat]
            rw [collLen_create_self]
            simp
      | explain10 =>
          refine ⟨?_, ?_, ?_⟩
          · simp only [chat]
            rw [collLen_create_ne "doubt" "flashcard" (by decide)]
            simp
          · simp only [chat]
            rw [collLen_create_ne "doubt" "quiz" (by decide)]
            simp
          · simp only [chat]
            rw [collLen_create_self]
            simp
      | flashcards =>
          refine ⟨?_, ?_, ?_⟩
          · simp only [chat]
            rw [collLen_create_self]
            simp
          · simp only [chat]
            rw [collLen_create_ne "flashcard" "quiz" (by decide)]
            simp
          · simp only [chat]
            rw [collLen_create_ne "flashcard" "doubt" (by decide)]
            simp
      | quiz =>
          refine ⟨?_, ?_, ?_⟩
          · simp only [chat]
            rw [collLen_create_ne "quiz" "flashcard" (by decide)]
            simp
          · simp only [chat]
            rw [collLen_create_self]
            simp
          · simp only [chat]
            rw [collLen_create_ne "quiz" "doubt" (by decide)]
            simp

end StudyBuddy
